import Mathlib

/-!
Verification of the wallet-service core (FastAPI application under `app/`)
against its natural-language specification.

The application mounted by `app/main.py` consists of the routers
`app/routers/auth.py`, `app/routers/api_keys.py` and `app/routers/wallet.py`
(the legacy `app/routers/payments.py` router is not included in the app),
together with the authentication helpers in `app/auth_utils.py` and the
ORM models in `app/models.py`.

The embedding below models the database as in-memory lists of rows, each
HTTP handler as a function from the database (plus the request data and the
values the handler obtains from its environment: the clock, freshly
generated UUIDs/secrets, and the responses of external collaborators) to
the new database and an `Except` outcome mirroring the handler's
`HTTPException` raises.  External cryptographic primitives (SHA-256 of API
keys, HMAC-SHA512 of webhook bodies, JWT signature verification) are
modelled as explicit function parameters or abstract validity flags, since
their internals live in external libraries, not in this repository.
-/

namespace WalletService

/-! ## Data model — `app/models.py` -/

/-- `TransactionStatus` enum (models.py lines 20-23). -/
inductive TransactionStatus
  | PENDING
  | SUCCESS
  | FAILED
deriving DecidableEq, Repr

/-- `TransactionStatus.value`: the string payload of the Python enum. -/
def TransactionStatus.value : TransactionStatus → String
  | .PENDING => "pending"
  | .SUCCESS => "success"
  | .FAILED => "failed"

/-- `Transaction` row (models.py lines 26-37).  `user_id` is a nullable
column; timestamps are modelled as naturals. -/
structure Transaction where
  reference : String
  user_id : Option String
  amount : Int
  status : TransactionStatus
  authorization_url : Option String
  paid_at : Option Nat
  created_at : Nat
deriving DecidableEq, Repr

/-- `Wallet` row (models.py lines 54-61); `user_id` carries a uniqueness
constraint in the schema. -/
structure Wallet where
  id : String
  user_id : String
  balance : Int
deriving DecidableEq, Repr

/-- `Transfer` row (models.py lines 64-72). -/
structure Transfer where
  id : String
  sender_id : String
  recipient_id : String
  amount : Int
  status : TransactionStatus
  created_at : Nat
deriving DecidableEq, Repr

/-- `APIKey` row (models.py lines 40-51). -/
structure APIKey where
  id : String
  user_id : String
  name : String
  key_hash : String
  permissions : List String
  expires_at : Nat
  is_active : Bool
deriving DecidableEq, Repr

/-- The relational store: one list of rows per table.  Users are
represented by their ids (the other `User` columns — email, name, picture,
google id — are never read by the ledger or key operations modelled
here). -/
structure DB where
  users : List String
  wallets : List Wallet
  transactions : List Transaction
  transfers : List Transfer
  apiKeys : List APIKey
deriving Repr

/-- The empty store the application starts from. -/
def DB.empty : DB :=
  { users := [], wallets := [], transactions := [], transfers := [], apiKeys := [] }

/-- All the distinct `HTTPException` outcomes raised by the modelled
handlers, one constructor per raise site class.  `unauthenticated` carries
the response's `detail` string so that distinguishable 401 responses stay
distinguishable in the model. -/
inductive ApiError
  | invalidAmount
  | missingSignature
  | invalidSignature
  | internalError
  | transactionNotFound
  | selfTransfer
  | senderWalletNotFound
  | insufficientBalance (available : Int)
  | recipientNotFound
  | unauthenticated (detail : String)
  | forbidden (required_permission : String)
  | keyNotFound
  | notExpired
  | keyLimitExceeded
  | invalidExpiry
  | paymentFailed
deriving DecidableEq, Repr

/-! ## Shared query helpers (the `select ... where` and
`scalar_one_or_none` patterns) -/

/-- `select(Wallet).where(Wallet.user_id == uid)` + `scalar_one_or_none`. -/
def findWallet (ws : List Wallet) (uid : String) : Option Wallet :=
  ws.find? (fun w => w.user_id == uid)

/-- `select(Transaction).where(Transaction.reference == ref)` +
`scalar_one_or_none`. -/
def findTransaction (ts : List Transaction) (ref : String) : Option Transaction :=
  ts.find? (fun t => t.reference == ref)

/-- Balance of `uid`'s wallet, 0 when the wallet row does not exist. -/
def walletBalance (db : DB) (uid : String) : Int :=
  match findWallet db.wallets uid with
  | some w => w.balance
  | none => 0

/-! ## Ledger operations — `app/routers/wallet.py` -/

/-- `wallet_deposit` (wallet.py lines 33-127).  `reference` stands for the
generated `txn_{uuid4().hex}` value; `paystackOk`/`authUrl` stand for the
external Paystack initialize call's outcome.  The `amount <= 0` guard is
the handler's own check (line 53); the schema also enforces `gt=0`.  On
the fresh-reference success path a PENDING `Transaction` row is inserted
(lines 104-114). -/
def wallet_deposit (db : DB) (uid : String) (amount : Int) (reference : String)
    (paystackOk : Bool) (authUrl : String) (now : Nat) :
    DB × Except ApiError (String × Option String) :=
  if amount ≤ 0 then
    (db, .error .invalidAmount)
  else
    match findTransaction db.transactions reference with
    | some existing => (db, .ok (existing.reference, existing.authorization_url))
    | none =>
      if paystackOk then
        let txn : Transaction :=
          { reference := reference, user_id := some uid, amount := amount,
            status := .PENDING, authorization_url := some authUrl,
            paid_at := none, created_at := now }
        ({ db with transactions := db.transactions ++ [txn] },
          .ok (reference, some authUrl))
      else
        (db, .error .paymentFailed)

/-- Parsed view of a webhook request: `bytes` stands for the exact raw
request body (`await request.body()`), and `eventType`/`reference` are
what `json.loads(body)` followed by `event.get("event")` and
`event.get("data", {}).get("reference")` extract from those bytes. -/
structure RawBody where
  bytes : String
  eventType : Option String
  reference : Option String

/-- `paystack_webhook` (wallet.py lines 130-224).  `hmacSha512` stands for
`hmac.new(settings.paystack_webhook_secret, body, sha512).hexdigest()`
with the secret folded in; `hmac.compare_digest` is string equality.
`freshWalletId` stands for the `uuid4()` used when the wallet row is
lazily created (line 201).  A `charge.success` event whose transaction is
PENDING marks it SUCCESS, sets `paid_at`, and credits the owner's wallet;
every other verified event is acknowledged without touching the store.  A
PENDING transaction whose `user_id` is NULL would make the lazy wallet
insert violate the wallets `user_id` NOT NULL constraint at commit,
surfacing as the handler's generic 500 with the session rolled back. -/
def paystack_webhook (hmacSha512 : String → String) (db : DB) (body : RawBody)
    (x_paystack_signature : Option String) (now : Nat) (freshWalletId : String) :
    DB × Except ApiError Bool :=
  match x_paystack_signature with
  | none => (db, .error .missingSignature)
  | some sig =>
    if hmacSha512 body.bytes = sig then
      if body.eventType = some "charge.success" then
        match body.reference with
        | none => (db, .ok true)
        | some ref =>
          match findTransaction db.transactions ref with
          | none => (db, .ok true)
          | some txn =>
            if txn.status = .PENDING then
              match txn.user_id with
              | none => (db, .error .internalError)
              | some owner =>
                let transactions' := db.transactions.map (fun t =>
                  if t.reference == ref then
                    { t with status := .SUCCESS, paid_at := some now }
                  else t)
                let wallets' :=
                  match findWallet db.wallets owner with
                  | some _ =>
                    db.wallets.map (fun w =>
                      if w.user_id == owner then
                        { w with balance := w.balance + txn.amount }
                      else w)
                  | none =>
                    db.wallets ++
                      [{ id := freshWalletId, user_id := owner,
                         balance := 0 + txn.amount }]
                ({ db with transactions := transactions', wallets := wallets' },
                  .ok true)
            else
              (db, .ok true)
      else
        (db, .ok true)
    else
      (db, .error .invalidSignature)

/-- `get_deposit_status` (wallet.py lines 227-264): a pure read. -/
def get_deposit_status (db : DB) (reference : String) :
    Except ApiError (String × String × Int × Option Nat) :=
  match findTransaction db.transactions reference with
  | none => .error .transactionNotFound
  | some txn => .ok (txn.reference, txn.status.value, txn.amount, txn.paid_at)

/-- `get_wallet_balance` (wallet.py lines 267-305): returns the balance,
lazily creating a zero-balance wallet row when none exists. -/
def get_wallet_balance (db : DB) (uid : String) (freshWalletId : String) :
    DB × Except ApiError Int :=
  match findWallet db.wallets uid with
  | some w => (db, .ok w.balance)
  | none =>
    let w : Wallet := { id := freshWalletId, user_id := uid, balance := 0 }
    ({ db with wallets := db.wallets ++ [w] }, .ok 0)

/-- `wallet_transfer` (wallet.py lines 308-406), with the request schema's
`amount` validation (`Field(..., gt=0)` in `WalletTransferRequest`)
applied first, exactly as FastAPI validates the body before the handler
runs; a non-positive amount never reaches the handler.  The checks then
follow the handler's order: self-transfer, sender wallet existence,
sufficient balance, recipient resolution (with lazy wallet creation for a
known user), then the debit, credit and `Transfer` insert committed as one
unit. -/
def wallet_transfer (db : DB) (uid : String) (wallet_number : String)
    (amount : Int) (freshWalletId : String) (freshTransferId : String)
    (now : Nat) : DB × Except ApiError String :=
  if amount ≤ 0 then
    (db, .error .invalidAmount)
  else if wallet_number == uid then
    (db, .error .selfTransfer)
  else
    match findWallet db.wallets uid with
    | none => (db, .error .senderWalletNotFound)
    | some sender_wallet =>
      if sender_wallet.balance < amount then
        (db, .error (.insufficientBalance sender_wallet.balance))
      else
        let tr : Transfer :=
          { id := freshTransferId, sender_id := uid,
            recipient_id := wallet_number, amount := amount,
            status := .SUCCESS, created_at := now }
        match findWallet db.wallets wallet_number with
        | some _ =>
          let wallets' := db.wallets.map (fun w =>
            if w.user_id == uid then { w with balance := w.balance - amount }
            else if w.user_id == wallet_number then
              { w with balance := w.balance + amount }
            else w)
          ({ db with wallets := wallets', transfers := db.transfers ++ [tr] },
            .ok "success")
        | none =>
          if db.users.contains wallet_number then
            let recipient₀ : Wallet :=
              { id := freshWalletId, user_id := wallet_number, balance := 0 }
            let recipient₁ :=
              { recipient₀ with balance := recipient₀.balance + amount }
            let wallets' := (db.wallets.map (fun w =>
              if w.user_id == uid then { w with balance := w.balance - amount }
              else w)) ++ [recipient₁]
            ({ db with wallets := wallets', transfers := db.transfers ++ [tr] },
              .ok "success")
          else
            (db, .error .recipientNotFound)

/-- One row of the `/wallet/transactions` response
(`TransactionHistoryItem` in schemas.py). -/
structure HistoryItem where
  type : String
  amount : Int
  status : String
  timestamp : Nat
deriving DecidableEq, Repr

/-- `get_transaction_history` (wallet.py lines 409-470): a pure read
merging the user's SUCCESS deposits and sent transfers, each fetched in
`created_at`-descending order, then stably re-sorted by item timestamp
descending (Python's stable `list.sort(reverse=True)` is modelled by a
stable merge sort on the ≥ relation). -/
def get_transaction_history (db : DB) (uid : String) : List HistoryItem :=
  let deposits := (db.transactions.filter
    (fun t => t.user_id == some uid && t.status == TransactionStatus.SUCCESS)).mergeSort
    (fun a b => Nat.ble b.created_at a.created_at)
  let depositItems := deposits.map (fun d =>
    { type := "deposit", amount := d.amount, status := d.status.value,
      timestamp := d.paid_at.getD d.created_at : HistoryItem })
  let sent := (db.transfers.filter (fun tr => tr.sender_id == uid)).mergeSort
    (fun a b => Nat.ble b.created_at a.created_at)
  let sentItems := sent.map (fun tr =>
    { type := "transfer", amount := tr.amount, status := tr.status.value,
      timestamp := tr.created_at : HistoryItem })
  (depositItems ++ sentItems).mergeSort (fun a b => Nat.ble b.timestamp a.timestamp)

/-! ## Authentication — `app/auth_utils.py`

JWT parsing/verification is performed by the external `jose` library; the
spec (§4.2) requires verification to validate the signature and expiry and
extract the subject claim.  A presented token is therefore modelled as the
outcome of that external verification: well-formedness, signature
validity, expiry, and the embedded `sub` claim. -/

/-- A bearer session token, as the external JWT library sees it:
`jwt.decode` raises `JWTError` exactly when the token is malformed, its
signature does not verify against the app secret, or it is expired;
otherwise it yields the payload, whose `sub` claim may be absent. -/
structure SessionToken where
  wellFormed : Bool
  sigValid : Bool
  expired : Bool
  sub : Option String

/-- `jwt.decode(token, settings.app_secret_key, algorithms=[HS256])`
followed by `payload.get("sub")`: `none` models a raised `JWTError`,
`some s` the extracted (possibly missing) subject claim. -/
def jwtDecode (tok : SessionToken) : Option (Option String) :=
  if tok.wellFormed && tok.sigValid && !tok.expired then some tok.sub else none

/-- The value of the `Authorization` header: either `Bearer <token>` or
anything that does not start with `Bearer `. -/
inductive AuthHeaderVal
  | bearer (tok : SessionToken)
  | other (raw : String)

/-- The JWT branch shared by `get_current_user_flexible` (auth_utils.py
lines 140-152) and `require_permission` (lines 179-190): when the
`Authorization` header carries a Bearer token that decodes, whose `sub`
is present and truthy (the empty string is falsy in `if user_id:`), and
whose subject exists in the users table, it yields that user; every other
outcome falls through. -/
def tryJwtUser (db : DB) (authorization : Option AuthHeaderVal) : Option String :=
  match authorization with
  | some (.bearer tok) =>
    match jwtDecode tok with
    | none => none
    | some payloadSub =>
      match payloadSub with
      | none => none
      | some user_id =>
        if user_id = "" then none
        else if db.users.contains user_id then some user_id
        else none
  | _ => none

/-- `get_user_from_api_key` (auth_utils.py lines 71-127).  `sha256` stands
for `hashlib.sha256(·).hexdigest()`.  Each distinct 401 keeps its
`detail` string. -/
def get_user_from_api_key (sha256 : String → String) (db : DB)
    (x_api_key : Option String) (now : Nat) :
    Except ApiError (String × APIKey) :=
  match x_api_key with
  | none => .error (.unauthenticated "API key required")
  | some key =>
    let key_hash := sha256 key
    match db.apiKeys.find? (fun k => k.key_hash == key_hash) with
    | none => .error (.unauthenticated "Invalid API key")
    | some api_key =>
      if !api_key.is_active then
        .error (.unauthenticated "API key has been revoked")
      else if api_key.expires_at < now then
        .error (.unauthenticated "API key has expired")
      else if db.users.contains api_key.user_id then
        .ok (api_key.user_id, api_key)
      else
        .error (.unauthenticated "User not found")

/-- `get_current_user_flexible` (auth_utils.py lines 130-164): tries the
JWT branch first; on fallthrough, tries the API key when the `X-API-Key`
header is present; else 401. -/
def get_current_user_flexible (sha256 : String → String) (db : DB)
    (authorization : Option AuthHeaderVal) (x_api_key : Option String)
    (now : Nat) : Except ApiError String :=
  match tryJwtUser db authorization with
  | some uid => .ok uid
  | none =>
    match x_api_key with
    | some _ =>
      match get_user_from_api_key sha256 db x_api_key now with
      | .ok (uid, _) => .ok uid
      | .error e => .error e
    | none =>
      .error (.unauthenticated
        "Authentication required. Provide either Bearer token or X-API-Key header")

/-- `require_permission(required_permission)`'s `permission_checker`
(auth_utils.py lines 167-210): a JWT caller is granted every permission;
an API-key caller must hold `required_permission` in the key's recorded
permission list, else 403. -/
def require_permission (sha256 : String → String)
    (required_permission : String) (db : DB)
    (authorization : Option AuthHeaderVal) (x_api_key : Option String)
    (now : Nat) : Except ApiError String :=
  match tryJwtUser db authorization with
  | some uid => .ok uid
  | none =>
    match x_api_key with
    | some _ =>
      match get_user_from_api_key sha256 db x_api_key now with
      | .error e => .error e
      | .ok (uid, api_key) =>
        if required_permission ∈ api_key.permissions then .ok uid
        else .error (.forbidden required_permission)
    | none => .error (.unauthenticated "Authentication required")

/-! ## API keys — `app/routers/api_keys.py` -/

/-- `parse_expiry` (api_keys.py lines 22-37), with time in seconds:
1H = 3600 s, 1D = 86400 s, 1M = 30 days, 1Y = 365 days; any other string
raises `ValueError`, modelled as `none`. -/
def parse_expiry (now : Nat) (expiry : String) : Option Nat :=
  if expiry = "1H" then some (now + 3600)
  else if expiry = "1D" then some (now + 86400)
  else if expiry = "1M" then some (now + 30 * 86400)
  else if expiry = "1Y" then some (now + 365 * 86400)
  else none

/-- `generate_api_key` (api_keys.py lines 40-52): `randomPart` stands for
`secrets.token_urlsafe(32)`; returns the plaintext key and its SHA-256
hash. -/
def generate_api_key (sha256 : String → String) (randomPart : String) :
    String × String :=
  let api_key := "sk_live_" ++ randomPart
  (api_key, sha256 api_key)

/-- The active-key count query shared by `create_api_key` (lines 69-77)
and `rollover_api_key` (lines 155-163): rows of the user with
`is_active == True` and `expires_at > now`. -/
def activeKeysCount (keys : List APIKey) (uid : String) (now : Nat) : Nat :=
  (keys.filter
    (fun k => k.user_id == uid && k.is_active && decide (now < k.expires_at))).length

/-- `create_api_key` (api_keys.py lines 55-115): rejects when the caller
already holds 5 active unexpired keys, parses the expiry window,
generates a fresh secret and stores only its hash. -/
def create_api_key (sha256 : String → String) (db : DB) (uid : String)
    (name : String) (permissions : List String) (expiry : String) (now : Nat)
    (freshId : String) (randomPart : String) :
    DB × Except ApiError (String × Nat) :=
  if activeKeysCount db.apiKeys uid now ≥ 5 then
    (db, .error .keyLimitExceeded)
  else
    match parse_expiry now expiry with
    | none => (db, .error .invalidExpiry)
    | some expires_at =>
      let (api_key, key_hash) := generate_api_key sha256 randomPart
      let new_key : APIKey :=
        { id := freshId, user_id := uid, name := name, key_hash := key_hash,
          permissions := permissions, expires_at := expires_at,
          is_active := true }
      ({ db with apiKeys := db.apiKeys ++ [new_key] }, .ok (api_key, expires_at))

/-- `rollover_api_key` (api_keys.py lines 118-201): looks up the target
key by id and owner; rejects with 404 when absent, with `NotExpired` when
`expires_at > now`, with the ceiling error when the caller already holds 5
active unexpired keys; otherwise mints a fresh key copying the target's
`name` and `permissions` verbatim, with the requested new expiry.  The
target row itself is not modified. -/
def rollover_api_key (sha256 : String → String) (db : DB) (uid : String)
    (expired_key_id : String) (expiry : String) (now : Nat)
    (freshId : String) (randomPart : String) :
    DB × Except ApiError (String × Nat) :=
  match db.apiKeys.find? (fun k => k.id == expired_key_id && k.user_id == uid) with
  | none => (db, .error .keyNotFound)
  | some expired_key =>
    if now < expired_key.expires_at then
      (db, .error .notExpired)
    else if activeKeysCount db.apiKeys uid now ≥ 5 then
      (db, .error .keyLimitExceeded)
    else
      match parse_expiry now expiry with
      | none => (db, .error .invalidExpiry)
      | some expires_at =>
        let (api_key, key_hash) := generate_api_key sha256 randomPart
        let new_key : APIKey :=
          { id := freshId, user_id := uid, name := expired_key.name,
            key_hash := key_hash, permissions := expired_key.permissions,
            expires_at := expires_at, is_active := true }
        ({ db with apiKeys := db.apiKeys ++ [new_key] },
          .ok (api_key, expires_at))

/-! ## The mounted operations and reachable states

`app/main.py` includes exactly the `auth`, `api_keys` and `wallet`
routers.  `Op` enumerates every mounted request that can touch the store
(pure reads are included as identity steps); `applyOp` gives each
request's effect on the store, and `Reach` closes `DB.empty` under these
requests with a monotone clock. -/

/-- One mounted API request together with the request data and the
environment values (fresh ids, crypto functions, collaborator responses)
its handler consumes. -/
inductive Op
  | googleCallback (uid : String)
  | deposit (uid : String) (amount : Int) (reference : String)
      (paystackOk : Bool) (authUrl : String)
  | webhook (hmacSha512 : String → String) (body : RawBody)
      (x_paystack_signature : Option String) (freshWalletId : String)
  | depositStatus (reference : String)
  | balanceQuery (uid : String) (freshWalletId : String)
  | transfer (uid : String) (wallet_number : String) (amount : Int)
      (freshWalletId : String) (freshTransferId : String)
  | historyQuery (uid : String)
  | createKey (sha256 : String → String) (uid : String) (name : String)
      (permissions : List String) (expiry : String) (freshId : String)
      (randomPart : String)
  | rolloverKey (sha256 : String → String) (uid : String)
      (expired_key_id : String) (expiry : String) (freshId : String)
      (randomPart : String)

/-- Whether the operation is the settlement webhook. -/
def Op.isWebhook : Op → Bool
  | .webhook .. => true
  | _ => false

/-- The effect of one mounted request, handled at time `t`, on the store.
`google_callback` (auth.py lines 50-160) creates the user row on first
login and only updates non-id columns afterwards; `get_deposit_status`
and `get_transaction_history` are pure reads. -/
def applyOp (t : Nat) (db : DB) : Op → DB
  | .googleCallback uid =>
    if db.users.contains uid then db
    else { db with users := db.users ++ [uid] }
  | .deposit uid amount reference paystackOk authUrl =>
    (wallet_deposit db uid amount reference paystackOk authUrl t).1
  | .webhook hmacSha512 body sig freshWalletId =>
    (paystack_webhook hmacSha512 db body sig t freshWalletId).1
  | .depositStatus _ => db
  | .balanceQuery uid freshWalletId =>
    (get_wallet_balance db uid freshWalletId).1
  | .transfer uid wallet_number amount freshWalletId freshTransferId =>
    (wallet_transfer db uid wallet_number amount freshWalletId freshTransferId t).1
  | .historyQuery _ => db
  | .createKey sha256 uid name permissions expiry freshId randomPart =>
    (create_api_key sha256 db uid name permissions expiry t freshId randomPart).1
  | .rolloverKey sha256 uid expired_key_id expiry freshId randomPart =>
    (rollover_api_key sha256 db uid expired_key_id expiry t freshId randomPart).1

/-- States reachable from the empty store by mounted requests under a
monotone clock; `Reach t db` holds when the store can be `db` at time
`t`. -/
inductive Reach : Nat → DB → Prop
  | init : Reach 0 DB.empty
  | tick {t t' : Nat} {db : DB} (h : Reach t db) (hle : t ≤ t') : Reach t' db
  | step {t : Nat} {db : DB} (o : Op) (h : Reach t db) : Reach t (applyOp t db o)

/-! ## Store invariants -/

/-- Every wallet row has a non-negative balance. -/
def WalletsNonneg (db : DB) : Prop := ∀ w ∈ db.wallets, 0 ≤ w.balance

/-- The wallets table respects its `user_id` uniqueness constraint. -/
def WalletKeysNodup (db : DB) : Prop := (db.wallets.map Wallet.user_id).Nodup

/-- Every transaction row carries a positive amount. -/
def TxnsPositive (db : DB) : Prop := ∀ txn ∈ db.transactions, 0 < txn.amount

/-- At time `t`, no user holds more than 5 active unexpired API keys. -/
def KeyCeiling (t : Nat) (db : DB) : Prop :=
  ∀ uid, activeKeysCount db.apiKeys uid t ≤ 5

/-- The inductive store invariant maintained by every mounted request. -/
def Inv (t : Nat) (db : DB) : Prop :=
  WalletsNonneg db ∧ WalletKeysNodup db ∧ TxnsPositive db ∧ KeyCeiling t db

/-! ## Concrete stores used to instantiate the theorems -/

/-- A store holding one lazily created zero-balance wallet, reached by a
single balance query on the empty store. -/
def dbOneWallet : DB := applyOp 0 DB.empty (Op.balanceQuery "alice" "w1")

/-- A placeholder hash function standing in for SHA-256 in concrete
instantiations. -/
def hashFn : String → String := fun s => "h_" ++ s

/-- One `createKey` request for user `u`, indexed by a serial used for the
fresh id and random secret. -/
def mkKeyOp (i : String) : Op :=
  Op.createKey hashFn "u" "main" ["read"] "1Y" ("k" ++ i) ("r" ++ i)

/-- The store after user `u` has created five 1-year API keys at time 0. -/
def dbFiveKeys : DB :=
  applyOp 0 (applyOp 0 (applyOp 0 (applyOp 0 (applyOp 0
    (applyOp 0 DB.empty (Op.googleCallback "u"))
    (mkKeyOp "1")) (mkKeyOp "2")) (mkKeyOp "3")) (mkKeyOp "4")) (mkKeyOp "5")

/-- A read-scoped API key whose plaintext is `"secret"`. -/
def kRead : APIKey :=
  { id := "k1", user_id := "u1", name := "main",
    key_hash := hashFn "secret", permissions := ["read"],
    expires_at := 100, is_active := true }

/-- A store with one user `u1` holding the read-scoped key [`kRead`]. -/
def dbKeyed : DB :=
  { users := ["u1"], wallets := [], transactions := [], transfers := [],
    apiKeys := [kRead] }

/-- A session token for `u1` that verifies. -/
def tokValid : SessionToken :=
  { wellFormed := true, sigValid := true, expired := false,
    sub := some "u1" }

/-- A session token for `u1` whose signature does not verify. -/
def tokBadSig : SessionToken :=
  { wellFormed := true, sigValid := false, expired := false,
    sub := some "u1" }

/-- An API key of user `u` that expired at time 10. -/
def kExpired : APIKey :=
  { id := "k0", user_id := "u", name := "old", key_hash := "h0",
    permissions := ["read", "transfer"], expires_at := 10,
    is_active := true }

/-- An active key of user `u` expiring at time 1000, indexed by serial. -/
def mkActiveKey (i : String) : APIKey :=
  { id := "k" ++ i, user_id := "u", name := "main",
    key_hash := "h" ++ i, permissions := ["read"], expires_at := 1000,
    is_active := true }

/-- A store where user `u` holds the expired key [`kExpired`] plus five
active unexpired keys. -/
def dbFullKeys : DB :=
  { users := ["u"], wallets := [], transactions := [], transfers := [],
    apiKeys := [kExpired, mkActiveKey "1", mkActiveKey "2",
                mkActiveKey "3", mkActiveKey "4", mkActiveKey "5"] }

/-- A store where user `u` holds only the expired key [`kExpired`]. -/
def dbOneExpiredKey : DB :=
  { users := ["u"], wallets := [], transactions := [], transfers := [],
    apiKeys := [kExpired] }

/-- A deposit transaction already settled SUCCESS. -/
def txnSettled : Transaction :=
  { reference := "txn_1", user_id := some "alice", amount := 5000,
    status := .SUCCESS, authorization_url := some "https://pay",
    paid_at := some 7, created_at := 0 }

/-- A store holding Alice's settled deposit and credited wallet. -/
def dbSettled : DB :=
  { users := ["alice"],
    wallets := [{ id := "w1", user_id := "alice", balance := 5000 }],
    transactions := [txnSettled], transfers := [], apiKeys := [] }

/-! ## Auxiliary list lemmas -/

theorem length_filter_le_of_imp {α : Type} {p q : α → Bool}
    (h : ∀ a, p a = true → q a = true) (l : List α) :
    (l.filter p).length ≤ (l.filter q).length := by
  induction l with
  | nil => simp
  | cons a l ih =>
    by_cases hp : p a = true
    · have hq := h a hp
      simp only [List.filter_cons, hp, hq, if_true, List.length_cons]
      exact Nat.succ_le_succ ih
    · rw [List.filter_cons, if_neg hp]
      cases hq : q a
      · rw [List.filter_cons, hq, if_neg (by simp)]
        exact ih
      · rw [List.filter_cons, hq, if_pos rfl]
        exact ih.trans (Nat.le_succ _)

theorem find?_map_of_pred_comm {α : Type} (f : α → α) (p : α → Bool)
    (hp : ∀ a, p (f a) = p a) (l : List α) :
    (l.map f).find? p = (l.find? p).map f := by
  rw [List.find?_map]
  congr 1
  induction l with
  | nil => rfl
  | cons a l ih =>
    rw [List.find?_cons, List.find?_cons, Function.comp_apply, hp a]
    cases p a <;> simp [ih]

theorem find?_append_of_some {α : Type} {l₁ : List α} (l₂ : List α)
    {p : α → Bool} {a : α} (h : l₁.find? p = some a) :
    (l₁ ++ l₂).find? p = some a := by
  rw [List.find?_append, h]
  rfl

theorem find?_append_of_none {α : Type} {l₁ : List α} (l₂ : List α)
    {p : α → Bool} (h : l₁.find? p = none) :
    (l₁ ++ l₂).find? p = l₂.find? p := by
  rw [List.find?_append, h]
  rfl

/-! ## API-key counting lemmas -/

theorem activeKeysCount_mono (ks : List APIKey) (uid : String) {t t' : Nat}
    (h : t ≤ t') : activeKeysCount ks uid t' ≤ activeKeysCount ks uid t := by
  apply length_filter_le_of_imp
  intro k hk
  simp only [Bool.and_eq_true, decide_eq_true_eq] at hk ⊢
  exact ⟨hk.1, lt_of_le_of_lt h hk.2⟩

theorem activeKeysCount_append (ks : List APIKey) (k : APIKey) (uid : String)
    (t : Nat) :
    activeKeysCount (ks ++ [k]) uid t =
      activeKeysCount ks uid t +
        (if k.user_id == uid && k.is_active && decide (t < k.expires_at)
          then 1 else 0) := by
  unfold activeKeysCount
  rw [List.filter_append, List.length_append]
  congr 1
  by_cases hk : (k.user_id == uid && k.is_active && decide (t < k.expires_at)) = true
  · rw [if_pos hk]
    simp [List.filter_cons, hk]
  · rw [if_neg hk]
    simp [List.filter_cons, Bool.not_eq_true _ ▸ hk]

theorem activeKeysCount_append_le (ks : List APIKey) (k : APIKey)
    (uid : String) (t : Nat) :
    activeKeysCount (ks ++ [k]) uid t ≤ activeKeysCount ks uid t + 1 := by
  rw [activeKeysCount_append]
  split <;> omega

theorem activeKeysCount_append_ne (ks : List APIKey) (k : APIKey)
    (uid : String) (t : Nat) (h : k.user_id ≠ uid) :
    activeKeysCount (ks ++ [k]) uid t = activeKeysCount ks uid t := by
  rw [activeKeysCount_append]
  rw [beq_eq_false_iff_ne.mpr h]
  simp

/-! ## Wallet lookup lemmas -/

theorem findWallet_eq_none_iff (l : List Wallet) (uid : String) :
    findWallet l uid = none ↔ uid ∉ l.map Wallet.user_id := by
  unfold findWallet
  rw [List.find?_eq_none]
  constructor
  · intro h hmem
    obtain ⟨w, hw, huid⟩ := List.mem_map.mp hmem
    exact absurd (by simp [huid]) (h w hw)
  · intro h w hw
    simp only [beq_iff_eq]
    intro huid
    exact h (List.mem_map.mpr ⟨w, hw, huid⟩)

theorem findWallet_of_mem_nodup {l : List Wallet}
    (hn : (l.map Wallet.user_id).Nodup) {w : Wallet} (hw : w ∈ l) :
    findWallet l w.user_id = some w := by
  induction l with
  | nil => cases hw
  | cons a l ih =>
    rw [List.map_cons, List.nodup_cons] at hn
    rcases List.mem_cons.mp hw with rfl | hmem
    · unfold findWallet
      rw [List.find?_cons, beq_self_eq_true]
    · unfold findWallet
      rw [List.find?_cons]
      have hne : (a.user_id == w.user_id) = false := by
        simp only [beq_eq_false_iff_ne, ne_eq]
        intro heq
        exact hn.1 (heq ▸ List.mem_map.mpr ⟨w, hmem, rfl⟩)
      rw [hne]
      exact ih hn.2 hmem

theorem map_user_id_of_preserve {g : Wallet → Wallet}
    (hg : ∀ w, (g w).user_id = w.user_id) (l : List Wallet) :
    (l.map g).map Wallet.user_id = l.map Wallet.user_id := by
  rw [List.map_map]
  exact List.map_congr_left (fun a _ => hg a)

theorem findWallet_map_of_preserve {g : Wallet → Wallet}
    (hg : ∀ w, (g w).user_id = w.user_id) (l : List Wallet) (uid : String) :
    findWallet (l.map g) uid = (findWallet l uid).map g := by
  unfold findWallet
  exact find?_map_of_pred_comm g _ (fun w => by rw [hg w]) l

/-! ## Invariant preservation, one lemma per state-changing handler -/

theorem inv_wallet_deposit {t : Nat} {db : DB} (h : Inv t db)
    (uid : String) (amount : Int) (ref : String) (ok : Bool) (url : String)
    (now : Nat) : Inv t (wallet_deposit db uid amount ref ok url now).1 := by
  obtain ⟨hw, hn, ht, hk⟩ := h
  unfold wallet_deposit
  split
  · exact ⟨hw, hn, ht, hk⟩
  next hpos =>
    split
    · exact ⟨hw, hn, ht, hk⟩
    · split
      · refine ⟨hw, hn, ?_, hk⟩
        intro x hx
        rcases List.mem_append.mp hx with hx | hx
        · exact ht x hx
        · rw [List.mem_singleton.mp hx]
          show (0 : Int) < amount
          omega
      · exact ⟨hw, hn, ht, hk⟩

theorem inv_paystack_webhook {t : Nat} {db : DB} (h : Inv t db)
    (hmacSha512 : String → String) (body : RawBody) (sig : Option String)
    (now : Nat) (fw : String) :
    Inv t (paystack_webhook hmacSha512 db body sig now fw).1 := by
  obtain ⟨hw, hn, ht, hk⟩ := h
  unfold paystack_webhook
  split
  · exact ⟨hw, hn, ht, hk⟩
  · split
    · split
      · split
        · exact ⟨hw, hn, ht, hk⟩
        next ref href =>
          split
          · exact ⟨hw, hn, ht, hk⟩
          next txn htxn =>
            split
            · split
              · exact ⟨hw, hn, ht, hk⟩
              next owner howner =>
                have htxn_mem : txn ∈ db.transactions :=
                  List.mem_of_find?_eq_some htxn
                have hamt : 0 < txn.amount := ht txn htxn_mem
                refine ⟨?_, ?_, ?_, hk⟩
                · intro w' hw'
                  simp only at hw'
                  split at hw'
                  · obtain ⟨w, hwmem, rfl⟩ := List.mem_map.mp hw'
                    by_cases hwid : (w.user_id == owner) = true
                    · rw [if_pos hwid]
                      have := hw w hwmem
                      simp only
                      omega
                    · rw [if_neg hwid]
                      exact hw w hwmem
                  · rcases List.mem_append.mp hw' with hmem | hmem
                    · exact hw w' hmem
                    · rw [List.mem_singleton.mp hmem]
                      simp only
                      omega
                · unfold WalletKeysNodup at hn ⊢
                  simp only
                  split
                  · rwa [map_user_id_of_preserve (fun w => by
                      by_cases hwid : (w.user_id == owner) = true
                      · rw [if_pos hwid]
                      · rw [if_neg hwid])]
                  next hnone =>
                    rw [List.map_append, List.map_singleton]
                    rw [List.nodup_append]
                    refine ⟨hn, List.nodup_singleton _, ?_⟩
                    intro x hx hx'
                    rw [List.mem_singleton.mp hx'] at hx
                    exact (findWallet_eq_none_iff _ _).mp hnone hx
                · intro x hx
                  obtain ⟨y, hymem, rfl⟩ := List.mem_map.mp hx
                  by_cases hyr : (y.reference == ref) = true
                  · rw [if_pos hyr]
                    exact ht y hymem
                  · rw [if_neg hyr]
                    exact ht y hymem
            · exact ⟨hw, hn, ht, hk⟩
      · exact ⟨hw, hn, ht, hk⟩
    · exact ⟨hw, hn, ht, hk⟩

theorem inv_get_wallet_balance {t : Nat} {db : DB} (h : Inv t db)
    (uid : String) (fw : String) :
    Inv t (get_wallet_balance db uid fw).1 := by
  obtain ⟨hw, hn, ht, hk⟩ := h
  unfold get_wallet_balance
  split
  · exact ⟨hw, hn, ht, hk⟩
  next hnone =>
    refine ⟨?_, ?_, ht, hk⟩
    · intro w' hw'
      rcases List.mem_append.mp hw' with hmem | hmem
      · exact hw w' hmem
      · rw [List.mem_singleton.mp hmem]
    · unfold WalletKeysNodup at hn ⊢
      simp only
      rw [List.map_append, List.map_singleton, List.nodup_append]
      refine ⟨hn, List.nodup_singleton _, ?_⟩
      intro x hx hx'
      rw [List.mem_singleton.mp hx'] at hx
      exact (findWallet_eq_none_iff _ _).mp hnone hx

theorem inv_wallet_transfer {t : Nat} {db : DB} (h : Inv t db)
    (uid : String) (wn : String) (amount : Int) (fw ft : String) (now : Nat) :
    Inv t (wallet_transfer db uid wn amount fw ft now).1 := by
  obtain ⟨hw, hn, ht, hk⟩ := h
  unfold wallet_transfer
  split
  · exact ⟨hw, hn, ht, hk⟩
  next hpos =>
    split
    · exact ⟨hw, hn, ht, hk⟩
    next hself =>
      split
      · exact ⟨hw, hn, ht, hk⟩
      next sender_wallet hsender =>
        split
        · exact ⟨hw, hn, ht, hk⟩
        next hbal =>
          split
          · refine ⟨?_, ?_, ht, hk⟩
            · intro w' hw'
              simp only at hw'
              obtain ⟨w, hwmem, rfl⟩ := List.mem_map.mp hw'
              by_cases hwid : (w.user_id == uid) = true
              · rw [if_pos hwid]
                have hweq : w = sender_wallet := by
                  have := findWallet_of_mem_nodup hn hwmem
                  rw [(beq_iff_eq.mp hwid)] at this
                  rw [hsender] at this
                  exact (Option.some.injEq _ _ ▸ this).symm
                subst hweq
                simp only
                omega
              · rw [if_neg hwid]
                by_cases hwid2 : (w.user_id == wn) = true
                · rw [if_pos hwid2]
                  have := hw w hwmem
                  simp only
                  omega
                · rw [if_neg hwid2]
                  exact hw w hwmem
            · unfold WalletKeysNodup at hn ⊢
              simp only
              rwa [map_user_id_of_preserve (fun w => by
                by_cases h1 : (w.user_id == uid) = true
                · rw [if_pos h1]
                · rw [if_neg h1]
                  by_cases h2 : (w.user_id == wn) = true
                  · rw [if_pos h2]
                  · rw [if_neg h2])]
          next hrecnone =>
            split
            · refine ⟨?_, ?_, ht, hk⟩
              · intro w' hw'
                simp only at hw'
                rcases List.mem_append.mp hw' with hmem | hmem
                · obtain ⟨w, hwmem, rfl⟩ := List.mem_map.mp hmem
                  by_cases hwid : (w.user_id == uid) = true
                  · rw [if_pos hwid]
                    have hweq : w = sender_wallet := by
                      have := findWallet_of_mem_nodup hn hwmem
                      rw [(beq_iff_eq.mp hwid)] at this
                      rw [hsender] at this
                      exact (Option.some.injEq _ _ ▸ this).symm
                    subst hweq
                    simp only
                    omega
                  · rw [if_neg hwid]
                    exact hw w hwmem
                · rw [List.mem_singleton.mp hmem]
                  simp only
                  omega
              · unfold WalletKeysNodup at hn ⊢
                simp only
                rw [List.map_append, List.map_singleton, List.nodup_append]
                refine ⟨?_, List.nodup_singleton _, ?_⟩
                · rwa [map_user_id_of_preserve (fun w => by
                    by_cases h1 : (w.user_id == uid) = true
                    · rw [if_pos h1]
                    · rw [if_neg h1])]
                · intro x hx hx'
                  rw [List.mem_singleton.mp hx'] at hx
                  rw [map_user_id_of_preserve (fun w => by
                    by_cases h1 : (w.user_id == uid) = true
                    · rw [if_pos h1]
                    · rw [if_neg h1])] at hx
                  exact (findWallet_eq_none_iff _ _).mp hrecnone hx
            · exact ⟨hw, hn, ht, hk⟩

theorem inv_create_api_key {t : Nat} {db : DB} (h : Inv t db)
    (sha256 : String → String) (uid name : String) (perms : List String)
    (expiry : String) (fid rand : String) :
    Inv t (create_api_key sha256 db uid name perms expiry t fid rand).1 := by
  obtain ⟨hw, hn, ht, hk⟩ := h
  unfold create_api_key
  split
  · exact ⟨hw, hn, ht, hk⟩
  next hcount =>
    split
    · exact ⟨hw, hn, ht, hk⟩
    · refine ⟨hw, hn, ht, ?_⟩
      intro uid'
      simp only
      by_cases huid : uid' = uid
      · subst huid
        refine le_trans (activeKeysCount_append_le _ _ _ _) ?_
        omega
      · rw [activeKeysCount_append_ne _ _ _ _
          (fun hh => huid (show uid' = uid from hh.symm))]
        exact hk uid'

theorem inv_rollover_api_key {t : Nat} {db : DB} (h : Inv t db)
    (sha256 : String → String) (uid kid expiry : String)
    (fid rand : String) :
    Inv t (rollover_api_key sha256 db uid kid expiry t fid rand).1 := by
  obtain ⟨hw, hn, ht, hk⟩ := h
  unfold rollover_api_key
  split
  · exact ⟨hw, hn, ht, hk⟩
  next expired_key hfound =>
    split
    · exact ⟨hw, hn, ht, hk⟩
    · split
      · exact ⟨hw, hn, ht, hk⟩
      next hcount =>
        split
        · exact ⟨hw, hn, ht, hk⟩
        · refine ⟨hw, hn, ht, ?_⟩
          intro uid'
          simp only
          by_cases huid : uid' = uid
          · subst huid
            refine le_trans (activeKeysCount_append_le _ _ _ _) ?_
            omega
          · rw [activeKeysCount_append_ne _ _ _ _
              (fun hh => huid (show uid' = uid from hh.symm))]
            exact hk uid'

theorem inv_applyOp {t : Nat} {db : DB} (h : Inv t db) (o : Op) :
    Inv t (applyOp t db o) := by
  cases o with
  | googleCallback uid =>
    obtain ⟨hw, hn, ht, hk⟩ := h
    simp only [applyOp]
    split
    · exact ⟨hw, hn, ht, hk⟩
    · exact ⟨hw, hn, ht, hk⟩
  | deposit uid amount reference paystackOk authUrl =>
    exact inv_wallet_deposit h uid amount reference paystackOk authUrl t
  | webhook hmacSha512 body sig freshWalletId =>
    exact inv_paystack_webhook h hmacSha512 body sig t freshWalletId
  | depositStatus _ => exact h
  | balanceQuery uid freshWalletId =>
    exact inv_get_wallet_balance h uid freshWalletId
  | transfer uid wallet_number amount fw ft =>
    exact inv_wallet_transfer h uid wallet_number amount fw ft t
  | historyQuery _ => exact h
  | createKey sha256 uid name permissions expiry freshId randomPart =>
    exact inv_create_api_key h sha256 uid name permissions expiry freshId
      randomPart
  | rolloverKey sha256 uid expired_key_id expiry freshId randomPart =>
    exact inv_rollover_api_key h sha256 uid expired_key_id expiry freshId
      randomPart

theorem reach_inv {t : Nat} {db : DB} (h : Reach t db) : Inv t db := by
  induction h with
  | init =>
    refine ⟨?_, ?_, ?_, ?_⟩
    · intro w hw
      cases hw
    · exact List.nodup_nil
    · intro txn htxn
      cases htxn
    · intro uid
      simp [activeKeysCount, DB.empty]
  | tick h hle ih =>
    obtain ⟨hw, hn, ht, hk⟩ := ih
    exact ⟨hw, hn, ht, fun uid => le_trans (activeKeysCount_mono _ _ hle) (hk uid)⟩
  | step o h ih => exact inv_applyOp ih o

/-! ## Webhook evaluation lemmas -/

theorem findTransaction_map_update (l : List Transaction) (ref : String)
    (f : Transaction → Transaction) (hf : ∀ x, (f x).reference = x.reference) :
    findTransaction (l.map f) ref = (findTransaction l ref).map f := by
  unfold findTransaction
  exact find?_map_of_pred_comm f _ (fun x => by rw [hf x]) l

/-- Evaluation of the webhook on a correctly signed `charge.success` event
whose transaction is PENDING with a non-null owner whose wallet exists:
the transaction is marked SUCCESS with the settlement timestamp and the
owner's wallet row is credited. -/
theorem paystack_webhook_pending_eval_found (hm : String → String) (db : DB)
    (body : RawBody) (t : Nat) (fw : String) (ref : String)
    (txn : Transaction) (owner : String) (w : Wallet)
    (hev : body.eventType = some "charge.success")
    (href : body.reference = some ref)
    (hfind : findTransaction db.transactions ref = some txn)
    (hstat : txn.status = .PENDING)
    (howner : txn.user_id = some owner)
    (hw : findWallet db.wallets owner = some w) :
    paystack_webhook hm db body (some (hm body.bytes)) t fw =
      ({ db with
          transactions := db.transactions.map (fun x =>
            if x.reference == ref then
              { x with status := .SUCCESS, paid_at := some t } else x),
          wallets := db.wallets.map (fun x =>
            if x.user_id == owner then
              { x with balance := x.balance + txn.amount } else x) },
        .ok true) := by
  unfold paystack_webhook
  simp only [hev, href, hfind, hstat, howner, hw, if_pos rfl,
    eq_self_iff_true, if_true]

/-- Evaluation of the webhook on a correctly signed `charge.success` event
whose transaction is PENDING with a non-null owner who has no wallet row
yet: the wallet is lazily created and credited. -/
theorem paystack_webhook_pending_eval_absent (hm : String → String) (db : DB)
    (body : RawBody) (t : Nat) (fw : String) (ref : String)
    (txn : Transaction) (owner : String)
    (hev : body.eventType = some "charge.success")
    (href : body.reference = some ref)
    (hfind : findTransaction db.transactions ref = some txn)
    (hstat : txn.status = .PENDING)
    (howner : txn.user_id = some owner)
    (hw : findWallet db.wallets owner = none) :
    paystack_webhook hm db body (some (hm body.bytes)) t fw =
      ({ db with
          transactions := db.transactions.map (fun x =>
            if x.reference == ref then
              { x with status := .SUCCESS, paid_at := some t } else x),
          wallets := db.wallets ++
            [{ id := fw, user_id := owner, balance := 0 + txn.amount }] },
        .ok true) := by
  unfold paystack_webhook
  simp only [hev, href, hfind, hstat, howner, hw, if_pos rfl,
    eq_self_iff_true, if_true]

/-- Evaluation of the webhook when the referenced transaction is not
PENDING: a correctly signed delivery is acknowledged without touching the
store. -/
theorem paystack_webhook_settled_eval (hm : String → String) (db : DB)
    (body : RawBody) (t : Nat) (fw : String) (ref : String)
    (txn : Transaction)
    (href : body.reference = some ref)
    (hfind : findTransaction db.transactions ref = some txn)
    (hstat : txn.status ≠ .PENDING) :
    paystack_webhook hm db body (some (hm body.bytes)) t fw = (db, .ok true) := by
  unfold paystack_webhook
  by_cases hev : body.eventType = some "charge.success"
  · simp only [hev, href, hfind, if_pos rfl, if_neg hstat, eq_self_iff_true,
      if_true]
  · simp only [if_pos rfl, if_neg hev, eq_self_iff_true, if_true]

/-! ## Claim theorems -/

/-- C2: in every store reachable by any sequence of mounted operations,
every wallet's balance is non-negative; and a transfer whose amount
exceeds the sender's balance is rejected with the insufficient-balance
error (reporting the available balance) before any debit, leaving the
store unchanged. -/
theorem wallet_balance_nonneg {t : Nat} {db : DB} (h : Reach t db) :
    (∀ w ∈ db.wallets, 0 ≤ w.balance) ∧
    (∀ (uid wn : String) (amount : Int) (fw ft : String) (now : Nat)
        (w : Wallet),
      0 < amount → wn ≠ uid →
      findWallet db.wallets uid = some w → w.balance < amount →
      wallet_transfer db uid wn amount fw ft now
        = (db, .error (.insufficientBalance w.balance))) := by
  refine ⟨(reach_inv h).1, ?_⟩
  intro uid wn amount fw ft now w hamt hwn hfind hlt
  unfold wallet_transfer
  rw [if_neg (by omega)]
  rw [if_neg (show ¬((wn == uid) = true) by simp [hwn])]
  split
  next hnone =>
    rw [hfind] at hnone
    cases hnone
  next sw hsw =>
    rw [hfind] at hsw
    injection hsw with hsw
    subst hsw
    rw [if_pos hlt]

/-- Witness for C2: the reachable store holding Alice's lazily created
zero-balance wallet satisfies both parts; in particular a 5-kobo transfer
from the zero balance is rejected with the insufficient-balance error. -/
theorem wallet_balance_nonneg_witness :
    wallet_transfer dbOneWallet "alice" "bob" 5 "w2" "t1" 0
      = (dbOneWallet, .error (.insufficientBalance 0)) :=
  (wallet_balance_nonneg
    (Reach.step (Op.balanceQuery "alice" "w1") Reach.init)).2
    "alice" "bob" 5 "w2" "t1" 0
    { id := "w1", user_id := "alice", balance := 0 }
    (by decide) (by decide) (by rfl) (by decide)

/-- C1: settling a deposit is idempotent.  For a verified `charge.success`
delivery whose reference resolves to a transaction owned by `owner`:
a first delivery finding the transaction PENDING credits the owner's
wallet by exactly the transaction amount; a delivery finding it no longer
PENDING changes nothing; and a second delivery of the same event after the
first returns the settled store unchanged (acknowledged `ok`), so the
wallet is credited exactly once and the transaction is not touched
again. -/
theorem settle_success_idempotent (hmacSha512 : String → String) (db : DB)
    (body : RawBody) (fw : String) (t t' : Nat) (ref : String)
    (txn : Transaction) (owner : String)
    (hev : body.eventType = some "charge.success")
    (href : body.reference = some ref)
    (hfind : findTransaction db.transactions ref = some txn)
    (howner : txn.user_id = some owner) :
    (txn.status = .PENDING →
      walletBalance (paystack_webhook hmacSha512 db body
          (some (hmacSha512 body.bytes)) t fw).1 owner
        = walletBalance db owner + txn.amount) ∧
    (txn.status ≠ .PENDING →
      (paystack_webhook hmacSha512 db body
          (some (hmacSha512 body.bytes)) t fw).1 = db) ∧
    paystack_webhook hmacSha512
        (paystack_webhook hmacSha512 db body
          (some (hmacSha512 body.bytes)) t fw).1
        body (some (hmacSha512 body.bytes)) t' fw
      = ((paystack_webhook hmacSha512 db body
          (some (hmacSha512 body.bytes)) t fw).1, .ok true) := by
  have hbeq : (txn.reference == ref) = true := by
    have := List.find?_some hfind
    simpa using this
  have hfind2 : findTransaction (db.transactions.map (fun x =>
      if x.reference == ref then
        { x with status := .SUCCESS, paid_at := some t } else x)) ref
      = some { txn with status := .SUCCESS, paid_at := some t } := by
    rw [findTransaction_map_update db.transactions ref _ (fun x => by
      by_cases hx : (x.reference == ref) = true
      · rw [if_pos hx]
      · rw [if_neg hx]), hfind]
    simp only [Option.map_some']
    rw [if_pos hbeq]
  by_cases hstat : txn.status = .PENDING
  · refine ⟨fun _ => ?_, fun hc => absurd hstat hc, ?_⟩
    · cases hfw : findWallet db.wallets owner with
      | some w =>
        rw [paystack_webhook_pending_eval_found hmacSha512 db body t fw ref
          txn owner w hev href hfind hstat howner hfw]
        have hwid : (w.user_id == owner) = true := by
          have := List.find?_some hfw
          simpa using this
        have hmap : findWallet
            (db.wallets.map (fun x =>
              if x.user_id == owner then
                { x with balance := x.balance + txn.amount } else x)) owner
            = some { w with balance := w.balance + txn.amount } := by
          rw [findWallet_map_of_preserve (fun x => by
            by_cases hx : (x.user_id == owner) = true
            · rw [if_pos hx]
            · rw [if_neg hx]) db.wallets owner, hfw]
          simp only [Option.map_some']
          rw [if_pos hwid]
        unfold walletBalance
        rw [hfw]
        show (match findWallet
            (db.wallets.map (fun x =>
              if x.user_id == owner then
                { x with balance := x.balance + txn.amount } else x)) owner with
          | some w' => w'.balance
          | none => 0) = w.balance + txn.amount
        rw [hmap]
      | none =>
        rw [paystack_webhook_pending_eval_absent hmacSha512 db body t fw ref
          txn owner hev href hfind hstat howner hfw]
        have hnotin : findWallet
            (db.wallets ++ [{ id := fw, user_id := owner,
                              balance := 0 + txn.amount }]) owner
            = some { id := fw, user_id := owner, balance := 0 + txn.amount } := by
          unfold findWallet at hfw ⊢
          rw [find?_append_of_none _ hfw]
          simp [List.find?_cons]
        unfold walletBalance
        rw [hfw]
        show (match findWallet
            (db.wallets ++ [{ id := fw, user_id := owner,
                              balance := 0 + txn.amount }]) owner with
          | some w' => w'.balance
          | none => 0) = 0 + txn.amount
        rw [hnotin]
    · cases hfw : findWallet db.wallets owner with
      | some w =>
        rw [paystack_webhook_pending_eval_found hmacSha512 db body t fw ref
          txn owner w hev href hfind hstat howner hfw]
        exact paystack_webhook_settled_eval hmacSha512 _ body t' fw ref
          { txn with status := .SUCCESS, paid_at := some t } href hfind2
          (fun hc => TransactionStatus.noConfusion hc)
      | none =>
        rw [paystack_webhook_pending_eval_absent hmacSha512 db body t fw ref
          txn owner hev href hfind hstat howner hfw]
        exact paystack_webhook_settled_eval hmacSha512 _ body t' fw ref
          { txn with status := .SUCCESS, paid_at := some t } href hfind2
          (fun hc => TransactionStatus.noConfusion hc)
  · have h2 := paystack_webhook_settled_eval hmacSha512 db body t fw ref txn
      href hfind hstat
    refine ⟨fun hc => absurd hc hstat, fun _ => by rw [h2], ?_⟩
    rw [h2]
    exact paystack_webhook_settled_eval hmacSha512 db body t' fw ref txn
      href hfind hstat

/-- Witness for C1: a concrete verified success event over a store holding
one PENDING 5000-kobo deposit credits Alice's wallet from 0 to 5000 on the
first delivery, and the second delivery returns the settled store
unchanged. -/
theorem settle_success_idempotent_witness :
    walletBalance (paystack_webhook hashFn
        { users := ["alice"], wallets := [],
          transactions := [{ reference := "txn_1", user_id := some "alice",
                             amount := 5000, status := .PENDING,
                             authorization_url := some "https://pay",
                             paid_at := none, created_at := 0 }],
          transfers := [], apiKeys := [] }
        { bytes := "payload", eventType := some "charge.success",
          reference := some "txn_1" }
        (some (hashFn "payload")) 7 "w9").1 "alice" = 0 + 5000 :=
  (settle_success_idempotent hashFn
    { users := ["alice"], wallets := [],
      transactions := [{ reference := "txn_1", user_id := some "alice",
                         amount := 5000, status := .PENDING,
                         authorization_url := some "https://pay",
                         paid_at := none, created_at := 0 }],
      transfers := [], apiKeys := [] }
    { bytes := "payload", eventType := some "charge.success",
      reference := some "txn_1" }
    "w9" 7 8 "txn_1"
    { reference := "txn_1", user_id := some "alice", amount := 5000,
      status := .PENDING, authorization_url := some "https://pay",
      paid_at := none, created_at := 0 }
    "alice" (by rfl) (by rfl) (by rfl) (by rfl)).1 (by rfl)

/-- C9: a webhook delivery whose signature header is missing, or differs
from the HMAC-SHA512 of the exact raw body under the webhook secret, is
rejected in the signature-verification phase (the 400 response for a
missing or mismatched signature) and the store is completely unchanged —
no Transaction or Wallet is touched. -/
theorem webhook_rejects_bad_signature (hmacSha512 : String → String)
    (db : DB) (body : RawBody) (sig : Option String) (t : Nat) (fw : String)
    (hbad : sig = none ∨ ∀ s, sig = some s → hmacSha512 body.bytes ≠ s) :
    (paystack_webhook hmacSha512 db body sig t fw).1 = db ∧
    ((paystack_webhook hmacSha512 db body sig t fw).2
        = .error .missingSignature ∨
      (paystack_webhook hmacSha512 db body sig t fw).2
        = .error .invalidSignature) := by
  cases sig with
  | none => exact ⟨rfl, Or.inl rfl⟩
  | some s =>
    rcases hbad with hnone | hne
    · cases hnone
    · have h := hne s rfl
      unfold paystack_webhook
      simp [if_neg h]

/-- Witness for C9: a delivery signed `"bad"` over the body `"payload"`
(whose correct keyed hash differs) leaves the empty store untouched and
is rejected as an invalid signature. -/
theorem webhook_rejects_bad_signature_witness :
    (paystack_webhook hashFn DB.empty
        { bytes := "payload", eventType := some "charge.success",
          reference := some "txn_1" } (some "bad") 0 "w1").1 = DB.empty ∧
    ((paystack_webhook hashFn DB.empty
        { bytes := "payload", eventType := some "charge.success",
          reference := some "txn_1" } (some "bad") 0 "w1").2
        = .error .missingSignature ∨
      (paystack_webhook hashFn DB.empty
        { bytes := "payload", eventType := some "charge.success",
          reference := some "txn_1" } (some "bad") 0 "w1").2
        = .error .invalidSignature) :=
  webhook_rejects_bad_signature hashFn DB.empty
    { bytes := "payload", eventType := some "charge.success",
      reference := some "txn_1" } (some "bad") 0 "w1"
    (Or.inr (fun s hs => by
      injection hs with hs
      subst hs
      decide))

/-- C5: a successful transfer of `amount` from `uid` to `wn` debits the
sender's wallet by exactly `amount`, credits the recipient's wallet by
exactly `amount`, leaves the sum of the two balances unchanged, and
appends exactly one Transfer row pairing the two users with that
amount. -/
theorem transfer_conservation (db : DB) (uid wn : String) (amount : Int)
    (fw ft : String) (now : Nat) (db' : DB) (msg : String)
    (hok : wallet_transfer db uid wn amount fw ft now = (db', .ok msg)) :
    walletBalance db' uid = walletBalance db uid - amount ∧
    walletBalance db' wn = walletBalance db wn + amount ∧
    walletBalance db' uid + walletBalance db' wn
      = walletBalance db uid + walletBalance db wn ∧
    db'.transfers = db.transfers ++
      [{ id := ft, sender_id := uid, recipient_id := wn, amount := amount,
         status := .SUCCESS, created_at := now }] := by
  unfold wallet_transfer at hok
  split at hok
  · simp at hok
  next hamt =>
    split at hok
    · simp at hok
    next hself =>
      have hwnuid : wn ≠ uid := fun h => hself (by simp [h])
      split at hok
      · simp at hok
      next sender_wallet hsw =>
        have hsid : (sender_wallet.user_id == uid) = true := by
          simpa using List.find?_some hsw
        split at hok
        · simp at hok
        next hbal =>
          split at hok
          next rw_ hrw =>
            rw [Prod.mk.injEq] at hok
            obtain ⟨hdb, -⟩ := hok
            have hrid : rw_.user_id = wn := by
              simpa using List.find?_some hrw
            have hgpre : ∀ x : Wallet,
                ((fun x =>
                  if x.user_id == uid then
                    { x with balance := x.balance - amount }
                  else if x.user_id == wn then
                    { x with balance := x.balance + amount }
                  else x) x).user_id = x.user_id := by
              intro x
              dsimp only
              by_cases h1 : (x.user_id == uid) = true
              · rw [if_pos h1]
              · rw [if_neg h1]
                by_cases h2 : (x.user_id == wn) = true
                · rw [if_pos h2]
                · rw [if_neg h2]
            have hwets : db'.wallets = db.wallets.map (fun x =>
                if x.user_id == uid then
                  { x with balance := x.balance - amount }
                else if x.user_id == wn then
                  { x with balance := x.balance + amount }
                else x) := by
              rw [← hdb]
            have htrs : db'.transfers = db.transfers ++
                [{ id := ft, sender_id := uid, recipient_id := wn,
                   amount := amount, status := .SUCCESS,
                   created_at := now }] := by
              rw [← hdb]
            have e1 : walletBalance db' uid = walletBalance db uid - amount := by
              unfold walletBalance
              rw [hwets, findWallet_map_of_preserve hgpre, hsw,
                Option.map_some']
              rw [if_pos hsid]
            have e2 : walletBalance db' wn = walletBalance db wn + amount := by
              unfold walletBalance
              rw [hwets, findWallet_map_of_preserve hgpre, hrw,
                Option.map_some']
              rw [if_neg (show ¬(rw_.user_id == uid) = true by
                simp [hrid, hwnuid]), if_pos (by simp [hrid])]
            exact ⟨e1, e2, by rw [e1, e2]; ring, htrs⟩
          next hrnone =>
            split at hok
            next huser =>
              rw [Prod.mk.injEq] at hok
              obtain ⟨hdb, -⟩ := hok
              have hgpre : ∀ x : Wallet,
                  ((fun x =>
                    if x.user_id == uid then
                      { x with balance := x.balance - amount }
                    else x) x).user_id = x.user_id := by
                intro x
                dsimp only
                by_cases h1 : (x.user_id == uid) = true
                · rw [if_pos h1]
                · rw [if_neg h1]
              have hwets : db'.wallets = (db.wallets.map (fun x =>
                  if x.user_id == uid then
                    { x with balance := x.balance - amount }
                  else x)) ++
                  [{ id := fw, user_id := wn, balance := 0 + amount }] := by
                rw [← hdb]
              have htrs : db'.transfers = db.transfers ++
                  [{ id := ft, sender_id := uid, recipient_id := wn,
                     amount := amount, status := .SUCCESS,
                     created_at := now }] := by
                rw [← hdb]
              have hmapped : findWallet (db.wallets.map (fun x =>
                  if x.user_id == uid then
                    { x with balance := x.balance - amount }
                  else x)) uid
                  = some { sender_wallet with
                           balance := sender_wallet.balance - amount } := by
                rw [findWallet_map_of_preserve hgpre, hsw, Option.map_some']
                rw [if_pos hsid]
              have hmapnone : findWallet (db.wallets.map (fun x =>
                  if x.user_id == uid then
                    { x with balance := x.balance - amount }
                  else x)) wn = none := by
                rw [findWallet_map_of_preserve hgpre, hrnone, Option.map_none']
              have e1 : walletBalance db' uid
                  = walletBalance db uid - amount := by
                unfold walletBalance
                rw [hwets]
                unfold findWallet at hmapped ⊢
                rw [find?_append_of_some _ hmapped]
                unfold findWallet at hsw
                rw [hsw]
              have e2 : walletBalance db' wn
                  = walletBalance db wn + amount := by
                unfold walletBalance
                rw [hwets]
                unfold findWallet at hmapnone ⊢
                rw [find?_append_of_none _ hmapnone]
                unfold findWallet at hrnone
                rw [hrnone]
                simp [List.find?_cons]
              exact ⟨e1, e2, by rw [e1, e2]; ring, htrs⟩
            · simp at hok

/-- Witness for C5: from a store where Alice holds 5000 kobo and Bob has
no wallet, transferring 3000 leaves Alice with 2000 and Bob with 3000 and
records one Transfer row. -/
theorem transfer_conservation_witness :
    walletBalance (wallet_transfer
        { users := ["alice", "bob"],
          wallets := [{ id := "w1", user_id := "alice", balance := 5000 }],
          transactions := [], transfers := [], apiKeys := [] }
        "alice" "bob" 3000 "w2" "t1" 9).1 "alice" = 5000 - 3000 :=
  (transfer_conservation
    { users := ["alice", "bob"],
      wallets := [{ id := "w1", user_id := "alice", balance := 5000 }],
      transactions := [], transfers := [], apiKeys := [] }
    "alice" "bob" 3000 "w2" "t1" 9
    (wallet_transfer
      { users := ["alice", "bob"],
        wallets := [{ id := "w1", user_id := "alice", balance := 5000 }],
        transactions := [], transfers := [], apiKeys := [] }
      "alice" "bob" 3000 "w2" "t1" 9).1
    "success" (by rfl)).1

/-- C6: in every reachable store, no user ever holds more than 5 API keys
that are simultaneously active and unexpired; both key creation and key
rollover reject the request when the count already equals 5; and a key
past its expiry is never among the rows the rollover ceiling counts. -/
theorem api_key_active_ceiling {t : Nat} {db : DB} (h : Reach t db) :
    (∀ uid, activeKeysCount db.apiKeys uid t ≤ 5) ∧
    (∀ (sha256 : String → String) (uid name : String) (perms : List String)
        (expiry fid rand : String),
      activeKeysCount db.apiKeys uid t = 5 →
      create_api_key sha256 db uid name perms expiry t fid rand
        = (db, .error .keyLimitExceeded)) ∧
    (∀ (sha256 : String → String) (uid kid expiry fid rand : String)
        (k : APIKey),
      db.apiKeys.find? (fun x => x.id == kid && x.user_id == uid) = some k →
      k.expires_at ≤ t →
      activeKeysCount db.apiKeys uid t = 5 →
      rollover_api_key sha256 db uid kid expiry t fid rand
        = (db, .error .keyLimitExceeded)) ∧
    (∀ (uid : String) (k : APIKey), k.expires_at ≤ t →
      k ∉ db.apiKeys.filter
        (fun x => x.user_id == uid && x.is_active && decide (t < x.expires_at))) := by
  refine ⟨(reach_inv h).2.2.2, ?_, ?_, ?_⟩
  · intro sha256 uid name perms expiry fid rand hcount
    unfold create_api_key
    rw [if_pos (by omega)]
  · intro sha256 uid kid expiry fid rand k hfind hexp hcount
    unfold rollover_api_key
    split
    next hnone =>
      rw [hfind] at hnone
      cases hnone
    next k' hk' =>
      rw [hfind] at hk'
      injection hk' with hk'
      subst hk'
      rw [if_neg (by omega), if_pos (by omega)]
  · intro uid k hexp hmem
    have hpred := (List.mem_filter.mp hmem).2
    simp only [Bool.and_eq_true, decide_eq_true_eq] at hpred
    omega

/-- Witness for C6: after five key creations user `u`'s active unexpired
count is exactly 5 and a sixth creation is rejected with the key-limit
error. -/
theorem api_key_active_ceiling_witness :
    create_api_key hashFn dbFiveKeys "u" "main" ["read"] "1Y" 0 "k6" "r6"
      = (dbFiveKeys, .error .keyLimitExceeded) :=
  (api_key_active_ceiling
    (Reach.step (mkKeyOp "5") (Reach.step (mkKeyOp "4") (Reach.step (mkKeyOp "3")
      (Reach.step (mkKeyOp "2") (Reach.step (mkKeyOp "1")
        (Reach.step (Op.googleCallback "u") Reach.init))))))).2.1
    hashFn "u" "main" ["read"] "1Y" "k6" "r6" (by rfl)

/-- C7: a scope-gated operation called with an API key that resolves but
whose recorded permission set lacks the required scope fails with the
403 Forbidden error; the same key succeeds when its permission set holds
the required scope; and a caller presenting a valid session token is
accepted regardless of the required scope and of any API-key header also
present (the scope check is bypassed for session callers). -/
theorem scope_enforcement (sha256 : String → String) (db : DB)
    (key : String) (api_key : APIKey) (uid : String) (now : Nat)
    (perm : String) (tok : SessionToken) (tuid : String)
    (xkey : Option String)
    (hresolve : get_user_from_api_key sha256 db (some key) now
      = .ok (uid, api_key))
    (hdec : jwtDecode tok = some (some tuid)) (htuid : tuid ≠ "")
    (hcontains : db.users.contains tuid = true) :
    (perm ∉ api_key.permissions →
      require_permission sha256 perm db none (some key) now
        = .error (.forbidden perm)) ∧
    (perm ∈ api_key.permissions →
      require_permission sha256 perm db none (some key) now = .ok uid) ∧
    require_permission sha256 perm db (some (.bearer tok)) xkey now
      = .ok tuid := by
  have hjwt : tryJwtUser db (some (.bearer tok)) = some tuid := by
    unfold tryJwtUser
    simp only [hdec, if_neg htuid, hcontains, if_true]
  refine ⟨fun hnin => ?_, fun hin => ?_, ?_⟩
  · unfold require_permission
    simp only [tryJwtUser, hresolve]
    rw [if_neg hnin]
  · unfold require_permission
    simp only [tryJwtUser, hresolve]
    rw [if_pos hin]
  · unfold require_permission
    rw [hjwt]

/-- Witness for C7: the read-only key `"secret"` of user `u1` is rejected
with 403 on the transfer scope. -/
theorem scope_enforcement_witness :
    require_permission hashFn "transfer" dbKeyed none (some "secret") 50
      = .error (.forbidden "transfer") :=
  (scope_enforcement hashFn dbKeyed "secret" kRead "u1" 50 "transfer"
    tokValid "u1" none (by rfl) (by rfl) (by decide) (by rfl)).1 (by decide)

/-- C4 (amended): when no API-key header accompanies the request, a bearer
session token that is malformed, mis-signed, expired, or whose subject is
not a known user resolves to the same 401 Unauthenticated outcome —
one identical response for all four causes, in both the flexible
authenticator and the permission checker.  (When an X-API-Key header is
present, a failed token verification instead falls through to API-key
authentication; see the counterexample.) -/
theorem session_token_fails_closed (sha256 : String → String) (db : DB)
    (tok : SessionToken) (now : Nat) (perm : String)
    (hfail : tok.wellFormed = false ∨ tok.sigValid = false ∨
      tok.expired = true ∨
      ∀ uid, tok.sub = some uid → db.users.contains uid = false) :
    get_current_user_flexible sha256 db (some (.bearer tok)) none now
      = .error (.unauthenticated
          "Authentication required. Provide either Bearer token or X-API-Key header") ∧
    require_permission sha256 perm db (some (.bearer tok)) none now
      = .error (.unauthenticated "Authentication required") := by
  have hjwt : tryJwtUser db (some (.bearer tok)) = none := by
    unfold tryJwtUser jwtDecode
    rcases hfail with h | h | h | h
    · simp [h]
    · simp [h]
    · simp [h]
    · show (match (if (tok.wellFormed && tok.sigValid && !tok.expired) = true
          then some tok.sub else none) with
        | none => none
        | some payloadSub =>
          match payloadSub with
          | none => none
          | some user_id =>
            if user_id = "" then none
            else if db.users.contains user_id = true then some user_id
            else none) = none
      by_cases hcond : (tok.wellFormed && tok.sigValid && !tok.expired) = true
      · rw [if_pos hcond]
        cases hsub : tok.sub with
        | none => rfl
        | some uid =>
          by_cases hemp : uid = ""
          · simp [hemp]
          · have hc := h uid hsub
            simp [hemp]
            simpa using hc
      · rw [if_neg hcond]
  constructor
  · unfold get_current_user_flexible
    rw [hjwt]
  · unfold require_permission
    rw [hjwt]

/-- Witness for C4 (amended): presenting only a mis-signed token for the
known user `u1` yields the flexible authenticator's single 401 outcome. -/
theorem session_token_fails_closed_witness :
    get_current_user_flexible hashFn dbKeyed (some (.bearer tokBadSig))
      none 50
      = .error (.unauthenticated
          "Authentication required. Provide either Bearer token or X-API-Key header") :=
  (session_token_fails_closed hashFn dbKeyed tokBadSig 50 "read"
    (Or.inr (Or.inl rfl))).1

/-- Counterexample for C4 as stated: a request presenting a mis-signed
bearer token TOGETHER with a valid API key does not resolve to
Unauthenticated — the token failure falls through and the caller is
authenticated as `u1` via the key. -/
theorem session_token_fallthrough_counterexample :
    get_current_user_flexible hashFn dbKeyed (some (.bearer tokBadSig))
      (some "secret") 50 = .ok "u1" := by rfl

/-- A valid expiry window string parses at every clock value. -/
theorem parse_expiry_some_any (now now' : Nat) (s : String) (e : Nat)
    (h : parse_expiry now s = some e) :
    ∃ e', parse_expiry now' s = some e' := by
  unfold parse_expiry at h ⊢
  split_ifs at h ⊢
  all_goals exact ⟨_, rfl⟩

/-- Counterexample for C8 as stated: user `u` owns the key `k0`, which is
genuinely past its expiry (10 ≤ 100), yet rollover does not succeed — it
is rejected by the 5-active-key ceiling, because `u` also holds five
active unexpired keys. -/
theorem rollover_blocked_by_ceiling_counterexample :
    dbFullKeys.apiKeys.find? (fun x => x.id == "k0" && x.user_id == "u")
        = some kExpired ∧
    kExpired.expires_at ≤ 100 ∧
    rollover_api_key hashFn dbFullKeys "u" "k0" "1H" 100 "k6" "r6"
      = (dbFullKeys, .error .keyLimitExceeded) :=
  ⟨by rfl, by decide, by rfl⟩

/-- C8 (amended): rollover of the caller's key fails with `NotExpired`
whenever the key's expiry timestamp is in the future; when the key is
genuinely past its expiry AND the caller's active-unexpired key count is
below the 5-key ceiling, rollover succeeds, minting a key that copies the
old key's label and permission set verbatim, stores the hash of a fresh
`sk_live_` secret, and carries the requested new expiry. -/
theorem rollover_requires_expiry (sha256 : String → String) (db : DB)
    (uid kid expiry : String) (now : Nat) (fid rand : String) (k : APIKey)
    (e : Nat)
    (hfind : db.apiKeys.find? (fun x => x.id == kid && x.user_id == uid)
      = some k) :
    (now < k.expires_at →
      rollover_api_key sha256 db uid kid expiry now fid rand
        = (db, .error .notExpired)) ∧
    (k.expires_at ≤ now →
      activeKeysCount db.apiKeys uid now < 5 →
      parse_expiry now expiry = some e →
      rollover_api_key sha256 db uid kid expiry now fid rand
        = ({ db with apiKeys := db.apiKeys ++
              [{ id := fid, user_id := uid, name := k.name,
                 key_hash := sha256 ("sk_live_" ++ rand),
                 permissions := k.permissions, expires_at := e,
                 is_active := true }] },
           .ok ("sk_live_" ++ rand, e))) := by
  constructor
  · intro hne
    unfold rollover_api_key
    split
    next hnone =>
      rw [hfind] at hnone
      cases hnone
    next k' hk' =>
      rw [hfind] at hk'
      injection hk' with hk'
      subst hk'
      rw [if_pos hne]
  · intro hexp hcount hparse
    unfold rollover_api_key
    split
    next hnone =>
      rw [hfind] at hnone
      cases hnone
    next k' hk' =>
      rw [hfind] at hk'
      injection hk' with hk'
      subst hk'
      rw [if_neg (by omega), if_neg (by omega), hparse]
      rfl

/-- Witness for C8 (amended): user `u`'s expired key `k0` (expired at 10,
now 100, one key in total) rolls over into a fresh active key copying its
label and scopes, with the requested 1-hour expiry. -/
theorem rollover_requires_expiry_witness :
    rollover_api_key hashFn dbOneExpiredKey "u" "k0" "1H" 100 "k7" "r7"
      = ({ dbOneExpiredKey with apiKeys := dbOneExpiredKey.apiKeys ++
            [{ id := "k7", user_id := "u", name := kExpired.name,
               key_hash := hashFn ("sk_live_" ++ "r7"),
               permissions := kExpired.permissions, expires_at := 100 + 3600,
               is_active := true }] },
         .ok ("sk_live_" ++ "r7", 100 + 3600)) :=
  (rollover_requires_expiry hashFn dbOneExpiredKey "u" "k0" "1H" 100 "k7"
    "r7" kExpired (100 + 3600) (by rfl)).2 (by decide) (by decide) (by rfl)

/-- C10: a successful rollover only appends one new active key row — the
expired target row (and every other pre-existing row) is kept verbatim,
so the target is still found unchanged afterwards, and rollover can be
invoked again on the same key id at any later time, minting another fresh
active key, provided only that the 5-active-key ceiling is not reached. -/
theorem rollover_leaves_target_unchanged (sha256 : String → String)
    (db : DB) (uid kid expiry : String) (now : Nat) (fid rand : String)
    (db' : DB) (resp : String × Nat) (k : APIKey) (now' : Nat)
    (fid' rand' : String)
    (hfind : db.apiKeys.find? (fun x => x.id == kid && x.user_id == uid)
      = some k)
    (hok : rollover_api_key sha256 db uid kid expiry now fid rand
      = (db', .ok resp))
    (hle : now ≤ now')
    (hcount : activeKeysCount db'.apiKeys uid now' < 5) :
    db'.apiKeys = db.apiKeys ++
      [{ id := fid, user_id := uid, name := k.name,
         key_hash := sha256 ("sk_live_" ++ rand),
         permissions := k.permissions, expires_at := resp.2,
         is_active := true }] ∧
    db'.apiKeys.find? (fun x => x.id == kid && x.user_id == uid) = some k ∧
    ∃ e', parse_expiry now' expiry = some e' ∧
      rollover_api_key sha256 db' uid kid expiry now' fid' rand'
        = ({ db' with apiKeys := db'.apiKeys ++
              [{ id := fid', user_id := uid, name := k.name,
                 key_hash := sha256 ("sk_live_" ++ rand'),
                 permissions := k.permissions, expires_at := e',
                 is_active := true }] },
           .ok ("sk_live_" ++ rand', e')) := by
  unfold rollover_api_key at hok
  split at hok
  next hnone =>
    rw [hfind] at hnone
    cases hnone
  next k' hk' =>
    rw [hfind] at hk'
    injection hk' with hk'
    subst hk'
    split at hok
    · simp at hok
    next hnexp =>
      split at hok
      · simp at hok
      next hcl =>
        split at hok
        · simp at hok
        next e hparse =>
          simp only [generate_api_key] at hok
          rw [Prod.mk.injEq] at hok
          obtain ⟨hdb, hval⟩ := hok
          injection hval with hval
          have hkeys : db'.apiKeys = db.apiKeys ++
              [{ id := fid, user_id := uid, name := k.name,
                 key_hash := sha256 ("sk_live_" ++ rand),
                 permissions := k.permissions, expires_at := e,
                 is_active := true }] := by
            rw [← hdb]
          have hr2 : resp.2 = e := by
            rw [← hval]
          have hfind' : db'.apiKeys.find?
              (fun x => x.id == kid && x.user_id == uid) = some k := by
            rw [hkeys]
            exact find?_append_of_some _ hfind
          refine ⟨by rw [hr2, hkeys], hfind', ?_⟩
          obtain ⟨e', hparse'⟩ := parse_expiry_some_any now now' expiry e hparse
          refine ⟨e', hparse', ?_⟩
          unfold rollover_api_key
          split
          next hnone2 =>
            rw [hfind'] at hnone2
            cases hnone2
          next k2 hk2 =>
            rw [hfind'] at hk2
            injection hk2 with hk2
            subst hk2
            rw [if_neg (by omega), if_neg (by omega), hparse']
            rfl

/-- Witness for C10: after `u`'s only (expired) key `k0` is rolled over
at time 100, the expired row is still found verbatim in the new store. -/
theorem rollover_leaves_target_unchanged_witness :
    ({ dbOneExpiredKey with apiKeys := dbOneExpiredKey.apiKeys ++
        [{ id := "k8", user_id := "u", name := kExpired.name,
           key_hash := hashFn ("sk_live_" ++ "r8"),
           permissions := kExpired.permissions, expires_at := 100 + 3600,
           is_active := true }] } : DB).apiKeys.find?
      (fun x => x.id == "k0" && x.user_id == "u") = some kExpired :=
  (rollover_leaves_target_unchanged hashFn dbOneExpiredKey "u" "k0" "1H"
    100 "k8" "r8"
    { dbOneExpiredKey with apiKeys := dbOneExpiredKey.apiKeys ++
        [{ id := "k8", user_id := "u", name := kExpired.name,
           key_hash := hashFn ("sk_live_" ++ "r8"),
           permissions := kExpired.permissions, expires_at := 100 + 3600,
           is_active := true }] }
    ("sk_live_" ++ "r8", 100 + 3600) kExpired 200 "k9" "r9"
    (by rfl) (by rfl) (by decide) (by decide)).2.1

/-! ## Transaction-table frame lemmas, one per handler -/

theorem find?_singleton {α : Type} (p : α → Bool) (a : α) :
    [a].find? p = if p a then some a else none := by
  cases h : p a <;> simp [List.find?_cons, h]

theorem findTransaction_ref {l : List Transaction} {ref : String}
    {txn : Transaction} (h : findTransaction l ref = some txn) :
    txn.reference = ref := by
  have := List.find?_some h
  simpa using this

theorem wallet_transfer_transactions_eq (db : DB) (uid wn : String)
    (amount : Int) (fw ft : String) (now : Nat) :
    (wallet_transfer db uid wn amount fw ft now).1.transactions
      = db.transactions := by
  unfold wallet_transfer
  repeat' split
  all_goals rfl

theorem get_wallet_balance_transactions_eq (db : DB) (uid fw : String) :
    (get_wallet_balance db uid fw).1.transactions = db.transactions := by
  unfold get_wallet_balance
  split
  all_goals rfl

theorem create_api_key_transactions_eq (sha256 : String → String) (db : DB)
    (uid name : String) (perms : List String) (expiry : String) (now : Nat)
    (fid rand : String) :
    (create_api_key sha256 db uid name perms expiry now fid rand).1.transactions
      = db.transactions := by
  unfold create_api_key
  repeat' split
  all_goals rfl

theorem rollover_api_key_transactions_eq (sha256 : String → String)
    (db : DB) (uid kid expiry : String) (now : Nat) (fid rand : String) :
    (rollover_api_key sha256 db uid kid expiry now fid rand).1.transactions
      = db.transactions := by
  unfold rollover_api_key
  repeat' split
  all_goals rfl

theorem wallet_deposit_transactions_cases (db : DB) (uid : String)
    (amount : Int) (ref : String) (ok : Bool) (url : String) (now : Nat) :
    (wallet_deposit db uid amount ref ok url now).1.transactions
      = db.transactions ∨
    (findTransaction db.transactions ref = none ∧
      (wallet_deposit db uid amount ref ok url now).1.transactions
        = db.transactions ++
          [{ reference := ref, user_id := some uid, amount := amount,
             status := .PENDING, authorization_url := some url,
             paid_at := none, created_at := now }]) := by
  unfold wallet_deposit
  split
  · left
    rfl
  · split
    · left
      rfl
    next hnone =>
      split
      · right
        exact ⟨hnone, rfl⟩
      · left
        rfl

theorem paystack_webhook_transactions_cases (hm : String → String)
    (db : DB) (body : RawBody) (sig : Option String) (t : Nat)
    (fw : String) :
    (paystack_webhook hm db body sig t fw).1.transactions
      = db.transactions ∨
    (∃ r txn0, body.reference = some r ∧
      findTransaction db.transactions r = some txn0 ∧
      txn0.status = .PENDING ∧
      (paystack_webhook hm db body sig t fw).1.transactions
        = db.transactions.map (fun x =>
            if x.reference == r then
              { x with status := .SUCCESS, paid_at := some t } else x)) := by
  unfold paystack_webhook
  split
  · left
    rfl
  · split
    · split
      · split
        · left
          rfl
        next r hr =>
          split
          · left
            rfl
          next txn0 htxn0 =>
            split
            next hstat =>
              split
              · left
                rfl
              next owner howner =>
                right
                exact ⟨r, txn0, hr, htxn0, hstat, rfl⟩
            · left
              rfl
      · left
        rfl
    · left
      rfl

/-- C3: across every mounted operation on any store — deposit initiation,
webhook settlement, reads, transfers, user login, key management — a
transaction that exists and is not PENDING is never modified again; a
transaction row that appears under an operation is created PENDING; every
operation other than the settlement webhook leaves every existing
transaction row untouched; and when a row does change, the change is
exactly the PENDING → SUCCESS settlement transition.  Hence a deposit
transaction leaves PENDING at most once, exclusively through the webhook
settlement. -/
theorem transaction_status_lifecycle (t : Nat) (db : DB) (o : Op)
    (ref : String) :
    (∀ txn, findTransaction db.transactions ref = some txn →
      txn.status ≠ .PENDING →
      findTransaction (applyOp t db o).transactions ref = some txn) ∧
    (∀ txn', findTransaction db.transactions ref = none →
      findTransaction (applyOp t db o).transactions ref = some txn' →
      txn'.status = .PENDING) ∧
    (o.isWebhook = false →
      ∀ txn, findTransaction db.transactions ref = some txn →
      findTransaction (applyOp t db o).transactions ref = some txn) ∧
    (∀ txn txn', findTransaction db.transactions ref = some txn →
      findTransaction (applyOp t db o).transactions ref = some txn' →
      txn' ≠ txn →
      txn.status = .PENDING ∧ txn'.status = .SUCCESS) := by
  have hcase : (applyOp t db o).transactions = db.transactions ∨
      (o.isWebhook = false ∧ ∃ r u a url,
        findTransaction db.transactions r = none ∧
        (applyOp t db o).transactions = db.transactions ++
          [{ reference := r, user_id := some u, amount := a,
             status := .PENDING, authorization_url := some url,
             paid_at := none, created_at := t }]) ∨
      (o.isWebhook = true ∧ ∃ r txn0,
        findTransaction db.transactions r = some txn0 ∧
        txn0.status = .PENDING ∧
        (applyOp t db o).transactions = db.transactions.map (fun x =>
          if x.reference == r then
            { x with status := .SUCCESS, paid_at := some t } else x)) := by
    cases o with
    | googleCallback uid =>
      simp only [applyOp]
      split
      · left
        rfl
      · left
        rfl
    | deposit uid amount reference paystackOk authUrl =>
      rcases wallet_deposit_transactions_cases db uid amount reference
        paystackOk authUrl t with heq | ⟨hfresh, happ⟩
      · left
        exact heq
      · right
        left
        exact ⟨rfl, reference, uid, amount, authUrl, hfresh, happ⟩
    | webhook hmacSha512 body sig freshWalletId =>
      rcases paystack_webhook_transactions_cases hmacSha512 db body sig t
        freshWalletId with heq | ⟨r, txn0, hr, hfind0, hstat0, hmap⟩
      · left
        exact heq
      · right
        right
        exact ⟨rfl, r, txn0, hfind0, hstat0, hmap⟩
    | depositStatus r =>
      left
      rfl
    | balanceQuery uid freshWalletId =>
      left
      exact get_wallet_balance_transactions_eq db uid freshWalletId
    | transfer uid wn amount fw ft =>
      left
      exact wallet_transfer_transactions_eq db uid wn amount fw ft t
    | historyQuery uid =>
      left
      rfl
    | createKey sha256 uid name permissions expiry fid rand =>
      left
      exact create_api_key_transactions_eq sha256 db uid name permissions
        expiry t fid rand
    | rolloverKey sha256 uid kid expiry fid rand =>
      left
      exact rollover_api_key_transactions_eq sha256 db uid kid expiry t
        fid rand
  have hpred : ∀ (r : String) (x : Transaction),
      ((fun x => if x.reference == r then
        { x with status := TransactionStatus.SUCCESS, paid_at := some t }
        else x) x).reference = x.reference := by
    intro r x
    dsimp only
    by_cases hx : (x.reference == r) = true
    · rw [if_pos hx]
    · rw [if_neg hx]
  rcases hcase with heq | ⟨hnw, r, u, a, url, hfresh, happ⟩ |
    ⟨hw, r, txn0, hfind0, hstat0, hmap⟩
  · refine ⟨?_, ?_, ?_, ?_⟩
    · intro txn h _
      rw [heq]
      exact h
    · intro txn' hnone hsome
      rw [heq, hnone] at hsome
      cases hsome
    · intro _ txn h
      rw [heq]
      exact h
    · intro txn txn' h h' hne
      rw [heq, h] at h'
      injection h' with h2
      exact absurd h2.symm hne
  · refine ⟨?_, ?_, ?_, ?_⟩
    · intro txn h _
      rw [happ]
      unfold findTransaction at h ⊢
      exact find?_append_of_some _ h
    · intro txn' hnone hsome
      rw [happ] at hsome
      unfold findTransaction at hnone hsome
      rw [find?_append_of_none _ hnone, find?_singleton] at hsome
      split at hsome
      · injection hsome with h2
        rw [← h2]
      · cases hsome
    · intro _ txn h
      rw [happ]
      unfold findTransaction at h ⊢
      exact find?_append_of_some _ h
    · intro txn txn' h h' hne
      rw [happ] at h'
      unfold findTransaction at h h'
      rw [find?_append_of_some _ h] at h'
      injection h' with h2
      exact absurd h2.symm hne
  · have hfind0' : List.find? (fun x => x.reference == r) db.transactions
        = some txn0 := hfind0
    refine ⟨?_, ?_, ?_, ?_⟩
    · intro txn h hs
      rw [hmap]
      unfold findTransaction at h ⊢
      rw [find?_map_of_pred_comm _ _ (fun x => by rw [hpred r x]), h,
        Option.map_some']
      by_cases hc : (txn.reference == r) = true
      · exfalso
        have h3 : txn.reference = ref := findTransaction_ref h
        have h4 : txn.reference = r := beq_iff_eq.mp hc
        rw [← h3, h4] at h
        rw [hfind0'] at h
        injection h with h5
        rw [h5] at hstat0
        exact hs hstat0
      · rw [if_neg hc]
    · intro txn' hnone hsome
      rw [hmap] at hsome
      unfold findTransaction at hnone hsome
      rw [find?_map_of_pred_comm _ _ (fun x => by rw [hpred r x]), hnone]
        at hsome
      cases hsome
    · intro hfalse
      rw [hw] at hfalse
      cases hfalse
    · intro txn txn' h h' hne
      rw [hmap] at h'
      unfold findTransaction at h h'
      rw [find?_map_of_pred_comm _ _ (fun x => by rw [hpred r x]), h,
        Option.map_some'] at h'
      injection h' with h2
      by_cases hc : (txn.reference == r) = true
      · have h3 : txn.reference = ref := findTransaction_ref h
        have h4 : txn.reference = r := beq_iff_eq.mp hc
        have h5 : txn = txn0 := by
          rw [← h3, h4] at h
          rw [hfind0'] at h
          injection h with h5
          exact h5.symm
        refine ⟨h5 ▸ hstat0, ?_⟩
        rw [if_pos hc] at h2
        rw [← h2]
      · rw [if_neg hc] at h2
        exact absurd h2.symm hne

/-- Witness for C3: redelivering a success webhook for Alice's
already-settled deposit leaves the settled transaction row exactly as it
was. -/
theorem transaction_status_lifecycle_witness :
    findTransaction (applyOp 9 dbSettled
        (Op.webhook hashFn
          { bytes := "payload", eventType := some "charge.success",
            reference := some "txn_1" }
          (some (hashFn "payload")) "w2")).transactions "txn_1"
      = some txnSettled :=
  (transaction_status_lifecycle 9 dbSettled
    (Op.webhook hashFn
      { bytes := "payload", eventType := some "charge.success",
        reference := some "txn_1" }
      (some (hashFn "payload")) "w2") "txn_1").1
    txnSettled (by rfl) (by decide)

end WalletService
